import Mathlib

/-!
Shallow embedding of the adaptive query load manager
(`src/data/graphql/effort.rs`) and of the nested-section stopwatch
(`src/components/metrics/stopwatch.rs`).

Instants and durations are modelled as natural numbers of nanoseconds
(`Instant` subtraction in the source saturates, matching `Nat` subtraction).
`f64` values that stay finite (kill rate, thresholds) are modelled as `ℚ`;
the one place where the source can produce IEEE infinities or NaN — the
effort ratio `query_effort / total_effort` and the Bernoulli probability —
is modelled by the extended type `F` below, which mirrors the IEEE special
values and Rust's `f64::min` / `f64::max` / `>` semantics exactly.
-/

/-- Model of an `f64` as used by the load manager: a finite rational, a signed
infinity (`true` = negative), or NaN.  Rounding is irrelevant to the claims
(they only involve products, quotients, comparisons, min and max), so finite
values are exact rationals. -/
inductive F where
  | nan : F
  | inf : Bool → F
  | fin : ℚ → F
deriving DecidableEq

/-- IEEE multiplication on `F` (as Rust `*` on `f64`); finite values exact. -/
def F.fmul : F → F → F
  | .nan, _ => .nan
  | _, .nan => .nan
  | .inf s, .inf t => .inf (xor s t)
  | .inf s, .fin q => if q = 0 then .nan else .inf (xor s (decide (q < 0)))
  | .fin q, .inf s => if q = 0 then .nan else .inf (xor s (decide (q < 0)))
  | .fin a, .fin b => .fin (a * b)

/-- IEEE division on `F` (as Rust `/` on `f64`); `0/0` and `inf/inf` are NaN,
`x/0` for finite nonzero `x` is a signed infinity. -/
def F.fdiv : F → F → F
  | .nan, _ => .nan
  | _, .nan => .nan
  | .inf _, .inf _ => .nan
  | .inf s, .fin q => .inf (xor s (decide (q < 0)))
  | .fin _, .inf _ => .fin 0
  | .fin a, .fin b =>
      if b = 0 then (if a = 0 then .nan else .inf (decide (a < 0)))
      else .fin (a / b)

/-- Rust `f64::min`: if one argument is NaN the other is returned, otherwise
the numeric minimum. -/
def F.fmin : F → F → F
  | .nan, b => b
  | a, .nan => a
  | .inf s, .inf t => .inf (s || t)
  | .inf s, .fin q => if s then .inf true else .fin q
  | .fin q, .inf s => if s then .inf true else .fin q
  | .fin a, .fin b => .fin (min a b)

/-- Rust `f64::max`: if one argument is NaN the other is returned, otherwise
the numeric maximum. -/
def F.fmax : F → F → F
  | .nan, b => b
  | a, .nan => a
  | .inf s, .inf t => .inf (s && t)
  | .inf s, .fin q => if s then .fin q else .inf false
  | .fin q, .inf s => if s then .fin q else .inf false
  | .fin a, .fin b => .fin (max a b)

/-- Rust `>` on `f64`: any comparison with NaN is false. -/
def F.fgt : F → F → Bool
  | .nan, _ => false
  | _, .nan => false
  | .inf s, .inf t => !s && t
  | .inf s, .fin _ => !s
  | .fin _, .inf s => s
  | .fin a, .fin b => decide (b < a)

/-- The probability handed to the Bernoulli draw in `LoadManager::decide`:
`(kill_rate * query_effort / total_effort).min(1.0).max(0.0)`. -/
def dropProb (kill_rate query_effort total_effort : ℚ) : F :=
  F.fmax (F.fmin (F.fdiv (F.fmul (.fin kill_rate) (.fin query_effort))
                         (.fin total_effort)) (.fin 1)) (.fin 0)

/-- `rand::Rng::gen_bool` accepts its probability argument iff it is a finite
value in `[0,1]` (it panics otherwise, and every comparison with NaN fails). -/
def pOk : F → Bool
  | .fin q => decide (0 ≤ q) && decide (q ≤ 1)
  | _ => false

/-- `KillState` from `effort.rs`: drop rate, update timestamp, start of the
current overload episode, and the last overload log timestamp. -/
structure KillState where
  kill_rate : ℚ
  last_update : ℕ
  overload_start : Option ℕ
  last_overload_log : ℕ
deriving DecidableEq

/-- What to log about the state we are currently in (`KillStateLogEvent`). -/
inductive KillStateLogEvent where
  | Start : KillStateLogEvent
  | Ongoing : ℕ → KillStateLogEvent
  | Settling : KillStateLogEvent
  | Resolved : ℕ → KillStateLogEvent
  | Skip : KillStateLogEvent
deriving DecidableEq

/-- `KillState::log_event`: updates the overload bookkeeping fields and says
what to log.  Mirrors the source's branch structure exactly. -/
def KillState.log_event (st : KillState) (now : ℕ) (kill_rate : ℚ)
    (overloaded : Bool) : KillStateLogEvent × KillState :=
  match st.overload_start with
  | some os =>
      if !overloaded then
        if kill_rate = 0 then
          (.Resolved (now - os), { st with overload_start := none })
        else (.Settling, st)
      else if 30000000000 < now - st.last_overload_log then
        (.Ongoing (now - os), { st with last_overload_log := now })
      else (.Skip, st)
  | none =>
      if overloaded then
        (.Start, { st with overload_start := some now, last_overload_log := now })
      else (.Skip, st)

/-- `KILL_RATE_STEP_UP = 0.1`. -/
def KILL_RATE_STEP_UP : ℚ := 1 / 10

/-- `KILL_RATE_STEP_DOWN = 2.0 * KILL_RATE_STEP_UP`. -/
def KILL_RATE_STEP_DOWN : ℚ := 2 * KILL_RATE_STEP_UP

/-- `KILL_RATE_UPDATE_INTERVAL = 1000 ms`, in nanoseconds. -/
def KILL_RATE_UPDATE_INTERVAL : ℕ := 1000000000

/-- `LoadManager::update_kill_rate`.  `none` models the panic of the
`assert!(overloaded || kill_rate > 0.0)`.  The snapshot `(kill_rate,
last_update)` was read earlier by the caller; `st` is the `KillState` the
update is committed into, exactly as in the source. -/
def LoadManager.update_kill_rate (now : ℕ) (kill_rate : ℚ) (last_update : ℕ)
    (overloaded : Bool) (st : KillState) : Option (ℚ × KillState) :=
  if overloaded = true ∨ 0 < kill_rate then
    if KILL_RATE_UPDATE_INTERVAL < now - last_update then
      let kr : ℚ :=
        if overloaded then min (kill_rate + KILL_RATE_STEP_UP * (1 - kill_rate)) 1
        else max (kill_rate - KILL_RATE_STEP_DOWN) 0
      some (kr, (KillState.log_event
        { st with kill_rate := kr, last_update := now } now kr overloaded).2)
    else some (kill_rate, st)
  else none

/-- The decision returned by the load manager (`Decision`). -/
inductive Decision where
  | Proceed : Decision
  | TooExpensive : Decision
  | Throttle : Decision
deriving DecidableEq

/-- Configuration read from the environment at startup.  `load_threshold` is
the `LOAD_THRESHOLD` duration in nanoseconds; load management is disabled iff
it is zero (`LOAD_MANAGEMENT_DISABLED`). -/
structure LMConfig where
  load_threshold : ℕ
  jail_queries : Bool
  jail_threshold : ℚ
  simulate : Bool

/-- Mutable state of a `LoadManager` relevant to `decide`: the jailed set,
the kill state, and a snapshot of the effort statistics (per-shape duration
in nanoseconds when the shape has been seen, and the total duration). -/
structure LMState where
  jailed : List ℕ
  kill : KillState
  effort : ℕ → Option ℕ
  total : ℕ

/-- `LoadManager::overloaded`: the max of the store-pool and semaphore wait
averages (Rust `Option::max`, where `None` is least), compared against the
threshold; the returned duration defaults to zero. -/
def LoadManager.overloaded (threshold : ℕ) (storeAvg semAvg : Option ℕ) :
    Bool × ℕ :=
  let maxAvg : Option ℕ :=
    match storeAvg, semAvg with
    | none, b => b
    | some x, none => some x
    | some x, some y => some (max x y)
  (match maxAvg with
   | some a => decide (threshold < a)
   | none => false,
   maxAvg.getD 0)

/-- `LoadManager::decide`.  `storeAvg`/`semAvg` are the two wait-time moving
averages read behind read locks; `declineDraw` is the outcome of the
Bernoulli draw; `none` models a panic (the `update_kill_rate` assertion or an
out-of-range `gen_bool` probability).  Effort durations are converted with
`as_millis` (truncating division by 10^6) and the jail ratio is compared with
IEEE `f64` semantics via `F`. -/
def LoadManager.decide (cfg : LMConfig) (blocked : List ℕ) (st : LMState)
    (storeAvg semAvg : Option ℕ) (shape : ℕ) (now : ℕ) (declineDraw : Bool) :
    Option (Decision × LMState) :=
  if blocked.contains shape then some (.TooExpensive, st)
  else if cfg.load_threshold = 0 then some (.Proceed, st)
  else if st.jailed.contains shape then
    some (if cfg.simulate then .Proceed else .TooExpensive, st)
  else if (LoadManager.overloaded cfg.load_threshold storeAvg semAvg).1 = false
      ∧ st.kill.kill_rate = 0 then
    some (.Proceed, st)
  else if st.total = 0 then some (.Proceed, st)
  else if (st.effort shape).isSome && cfg.jail_queries
      && F.fgt (F.fdiv (.fin ((((st.effort shape).getD st.total) / 1000000 : ℕ) : ℚ))
                       (.fin ((st.total / 1000000 : ℕ) : ℚ)))
               (.fin cfg.jail_threshold) then
    some (if cfg.simulate then .Proceed else .TooExpensive,
          { st with jailed := shape :: st.jailed })
  else
    match LoadManager.update_kill_rate now st.kill.kill_rate st.kill.last_update
        (LoadManager.overloaded cfg.load_threshold storeAvg semAvg).1 st.kill with
    | none => none
    | some (kr, kill') =>
      if pOk (dropProb kr ((((st.effort shape).getD st.total) / 1000000 : ℕ) : ℚ)
                          ((st.total / 1000000 : ℕ) : ℚ)) then
        if declineDraw then
          some (if cfg.simulate then .Proceed else .Throttle,
                { st with kill := kill' })
        else some (.Proceed, { st with kill := kill' })
      else none

/-- `StopwatchInner` from `stopwatch.rs`: the section stack (head = top,
i.e. the currently executing section), the timer instant, and the per-section
counters (cumulative attributed time, in nanoseconds as `ℚ`). -/
structure StopwatchInner where
  section_stack : List String
  timer : ℕ
  counters : String → ℚ

/-- `StopwatchInner::record_and_reset`: attribute the elapsed time to the
current stack top (if any) and reset the timer. -/
def StopwatchInner.record_and_reset (st : StopwatchInner) (now : ℕ) :
    StopwatchInner :=
  match st.section_stack with
  | s :: _ =>
      { st with
        counters := fun x =>
          if x = s then st.counters x + ((now - st.timer : ℕ) : ℚ)
          else st.counters x,
        timer := now }
  | [] => { st with timer := now }

/-- `StopwatchInner::start_section`: record the elapsed time, then push. -/
def StopwatchInner.start_section (st : StopwatchInner) (now : ℕ) (id : String) :
    StopwatchInner :=
  let st1 := st.record_and_reset now
  { st1 with section_stack := id :: st1.section_stack }

/-- `StopwatchInner::end_section`: pop only when the stack top equals the
closing id (recording the elapsed time first); otherwise, or on an empty
stack, only an error is logged and the state is untouched. -/
def StopwatchInner.end_section (st : StopwatchInner) (now : ℕ) (id : String) :
    StopwatchInner :=
  match st.section_stack with
  | top :: rest =>
      if top = id then { st.record_and_reset now with section_stack := rest }
      else st
  | [] => st

/-- A live `Section` guard: its id, and whether its `start_section` actually
pushed onto the stack (it does not when the stopwatch was already disabled at
creation time). -/
structure SectionHandle where
  id : String
  pushed : Bool

/-- The observable state of a `StopwatchMetrics` together with the set of
live `Section` guards. -/
structure StopwatchSys where
  disabled : Bool
  inner : StopwatchInner
  pending : List SectionHandle

/-- The public operations on a `StopwatchMetrics`: `start_section` (creating
a guard), dropping the `k`-th live guard (which calls `end_section` with the
guard's id), and `disable`. -/
inductive SWOp where
  | start : ℕ → String → SWOp
  | dropSec : ℕ → ℕ → SWOp
  | disable : SWOp

/-- One public operation.  `start_section` consults the disabled flag before
touching the inner state but always hands out a guard; a guard's drop calls
`StopwatchMetrics::end_section`, which is a no-op when disabled. -/
def swStep (st : StopwatchSys) : SWOp → StopwatchSys
  | .start now id =>
      if st.disabled then { st with pending := ⟨id, false⟩ :: st.pending }
      else
        { st with
          inner := st.inner.start_section now id,
          pending := ⟨id, true⟩ :: st.pending }
  | .dropSec now k =>
      match st.pending[k]? with
      | none => st
      | some h =>
          if st.disabled then { st with pending := st.pending.eraseIdx k }
          else
            { st with
              inner := st.inner.end_section now h.id,
              pending := st.pending.eraseIdx k }
  | .disable => { st with disabled := true }

/-- `StopwatchMetrics::new`: a fresh inner stopwatch on which a base
`"unknown"` section is immediately started. -/
def swInit (now0 : ℕ) : StopwatchSys :=
  { disabled := false,
    inner := StopwatchInner.start_section ⟨[], now0, fun _ => 0⟩ now0 "unknown",
    pending := [] }

/-- Run a sequence of public stopwatch operations from a fresh stopwatch. -/
def swRun (now0 : ℕ) (ops : List SWOp) : StopwatchSys :=
  ops.foldl swStep (swInit now0)

/-! ## Helper lemmas -/

/-- Clamping any `f64` value with `.min(1.0).max(0.0)` yields a finite value
in the unit interval. -/
theorem clamp01_fin (x : F) :
    ∃ p : ℚ, F.fmax (F.fmin x (.fin 1)) (.fin 0) = .fin p ∧ 0 ≤ p ∧ p ≤ 1 := by
  cases x with
  | nan => exact ⟨1, by norm_num [F.fmin, F.fmax], by norm_num, le_refl 1⟩
  | inf s =>
      cases s with
      | true => exact ⟨0, by norm_num [F.fmin, F.fmax], le_refl 0, by norm_num⟩
      | false => exact ⟨1, by norm_num [F.fmin, F.fmax], by norm_num, le_refl 1⟩
  | fin q =>
      refine ⟨max (min q 1) 0, by simp [F.fmin, F.fmax], le_max_right _ _, ?_⟩
      exact max_le (min_le_right _ _) (by norm_num)

/-- The Bernoulli probability always satisfies `gen_bool`'s range check. -/
theorem pOk_dropProb (kr qe te : ℚ) : pOk (dropProb kr qe te) = true := by
  obtain ⟨p, hp, h0, h1⟩ :=
    clamp01_fin (F.fdiv (F.fmul (.fin kr) (.fin qe)) (.fin te))
  unfold dropProb
  rw [hp]
  simp [pOk, h0, h1]

/-- `log_event` never touches `kill_rate` or `last_update`. -/
theorem log_event_preserves (s : KillState) (now : ℕ) (kr : ℚ) (ov : Bool) :
    (s.log_event now kr ov).2.kill_rate = s.kill_rate ∧
    (s.log_event now kr ov).2.last_update = s.last_update := by
  obtain ⟨a, b, c, d⟩ := s
  unfold KillState.log_event
  cases c <;> dsimp <;> split_ifs <;> simp

/-- Once the assertion passes, `update_kill_rate` always returns a value. -/
theorem update_kill_rate_isSome (now : ℕ) (kr : ℚ) (lu : ℕ) (ov : Bool)
    (st : KillState) (h : ov = true ∨ 0 < kr) :
    ∃ r, LoadManager.update_kill_rate now kr lu ov st = some r := by
  unfold LoadManager.update_kill_rate
  rw [if_pos h]
  split_ifs <;> exact ⟨_, rfl⟩

/-- The value `update_kill_rate` computes and commits once the interval has
elapsed, spelled out. -/
theorem update_kill_rate_step (now : ℕ) (kill_rate : ℚ) (last_update : ℕ)
    (overloaded : Bool) (st : KillState)
    (hpre : overloaded = true ∨ 0 < kill_rate)
    (hlt : KILL_RATE_UPDATE_INTERVAL < now - last_update) :
    LoadManager.update_kill_rate now kill_rate last_update overloaded st
      = some ((if overloaded
               then min (kill_rate + KILL_RATE_STEP_UP * (1 - kill_rate)) 1
               else max (kill_rate - KILL_RATE_STEP_DOWN) 0),
        (KillState.log_event
          { st with
            kill_rate := (if overloaded
               then min (kill_rate + KILL_RATE_STEP_UP * (1 - kill_rate)) 1
               else max (kill_rate - KILL_RATE_STEP_DOWN) 0),
            last_update := now } now
          (if overloaded
           then min (kill_rate + KILL_RATE_STEP_UP * (1 - kill_rate)) 1
           else max (kill_rate - KILL_RATE_STEP_DOWN) 0) overloaded).2) := by
  unfold LoadManager.update_kill_rate
  rw [if_pos hpre, if_pos hlt]

/-! ## Claim theorems (first batch) -/

/-- C9: for all real-valued inputs, the probability passed to the Bernoulli
draw in `decide` — `(kill_rate * query_effort / total_effort).min(1.0).max(0.0)`,
including the cases where the division yields an infinity or NaN — is a
finite value in the closed interval `[0,1]`. -/
theorem c9_drop_probability_in_unit_interval (kr qe te : ℚ) :
    ∃ p : ℚ, dropProb kr qe te = .fin p ∧ 0 ≤ p ∧ p ≤ 1 := by
  unfold dropProb
  exact clamp01_fin _

/-- C2: `update_kill_rate` returns the kill rate unchanged (writing nothing)
when no more than `UPDATE_INTERVAL` has elapsed since `last_update`; otherwise
it returns `min(1, kill_rate + 0.1*(1-kill_rate))` when overloaded and
`max(0, kill_rate - 0.2)` when not, committing that value and
`last_update = now` into the `KillState`. -/
theorem c2_update_kill_rate_spec (now : ℕ) (kill_rate : ℚ) (last_update : ℕ)
    (overloaded : Bool) (st : KillState)
    (hpre : overloaded = true ∨ 0 < kill_rate) :
    (now - last_update ≤ KILL_RATE_UPDATE_INTERVAL →
      LoadManager.update_kill_rate now kill_rate last_update overloaded st
        = some (kill_rate, st)) ∧
    (KILL_RATE_UPDATE_INTERVAL < now - last_update →
      ∃ st' : KillState,
        LoadManager.update_kill_rate now kill_rate last_update overloaded st
          = some ((if overloaded
                   then min 1 (kill_rate + KILL_RATE_STEP_UP * (1 - kill_rate))
                   else max 0 (kill_rate - KILL_RATE_STEP_DOWN)), st') ∧
        st'.kill_rate = (if overloaded
                   then min 1 (kill_rate + KILL_RATE_STEP_UP * (1 - kill_rate))
                   else max 0 (kill_rate - KILL_RATE_STEP_DOWN)) ∧
        st'.last_update = now) := by
  constructor
  · intro hle
    unfold LoadManager.update_kill_rate
    rw [if_pos hpre, if_neg (by omega)]
  · intro hlt
    have hstep := update_kill_rate_step now kill_rate last_update overloaded st
      hpre hlt
    cases overloaded with
    | true =>
        simp only [if_true] at hstep ⊢
        refine ⟨(KillState.log_event
          { st with
            kill_rate := min (kill_rate + KILL_RATE_STEP_UP * (1 - kill_rate)) 1,
            last_update := now } now
          (min (kill_rate + KILL_RATE_STEP_UP * (1 - kill_rate)) 1) true).2,
          ?_, ?_, ?_⟩
        · rw [hstep, min_comm 1]
        · rw [(log_event_preserves _ _ _ _).1]
          exact min_comm _ _
        · rw [(log_event_preserves _ _ _ _).2]
    | false =>
        simp only [Bool.false_eq_true, if_false] at hstep ⊢
        refine ⟨(KillState.log_event
          { st with
            kill_rate := max (kill_rate - KILL_RATE_STEP_DOWN) 0,
            last_update := now } now
          (max (kill_rate - KILL_RATE_STEP_DOWN) 0) false).2,
          ?_, ?_, ?_⟩
        · rw [hstep, max_comm 0]
        · rw [(log_event_preserves _ _ _ _).1]
          exact max_comm _ _
        · rw [(log_event_preserves _ _ _ _).2]

/-- C3: when `LOAD_THRESHOLD` is zero (load management disabled) and the
shape hash is not blocked, `decide` returns `Proceed` regardless of wait
statistics, effort, kill rate, or jail state, and leaves the state as is. -/
theorem c3_disabled_always_proceeds (cfg : LMConfig) (blocked : List ℕ)
    (st : LMState) (storeAvg semAvg : Option ℕ) (shape now : ℕ) (draw : Bool)
    (h0 : cfg.load_threshold = 0) (hb : blocked.contains shape = false) :
    LoadManager.decide cfg blocked st storeAvg semAvg shape now draw
      = some (.Proceed, st) := by
  have hb' : shape ∉ blocked := by simpa using hb
  simp [LoadManager.decide, h0, hb']

/-- C5: a shape hash in the `blocked_queries` set fixed at construction gets
`TooExpensive`, regardless of configuration, wait statistics, effort or kill
state, and the state is untouched. -/
theorem c5_blocked_too_expensive (cfg : LMConfig) (blocked : List ℕ)
    (st : LMState) (storeAvg semAvg : Option ℕ) (shape now : ℕ) (draw : Bool)
    (hb : blocked.contains shape = true) :
    LoadManager.decide cfg blocked st storeAvg semAvg shape now draw
      = some (.TooExpensive, st) := by
  have hb' : shape ∈ blocked := by simpa using hb
  simp [LoadManager.decide, hb']

/-! ## Concrete example states used by counterexamples and witnesses -/

/-- A fresh kill state (rate 0). -/
def ksEx : KillState := ⟨0, 0, none, 0⟩

/-- A fresh load-manager state: nothing jailed, no effort recorded. -/
def stEx : LMState := ⟨[], ksEx, fun _ => none, 0⟩

/-- Simulate mode with load management enabled (threshold 10 ms). -/
def cfgSim : LMConfig := ⟨10000000, false, 1000000000, true⟩

/-- Simulate mode with load management disabled (threshold 0). -/
def cfgSim0 : LMConfig := ⟨0, false, 1000000000, true⟩

/-- C1 counterexample: with simulate mode enabled, `decide` on a shape hash
in the blocked set still returns `TooExpensive` — the blocked-query check
precedes the simulate handling, so simulate mode does not make every call
return `Proceed`. -/
theorem c1_counterexample :
    cfgSim.simulate = true ∧
    LoadManager.decide cfgSim [42] stEx none none 42 0 false
      = some (.TooExpensive, stEx) :=
  ⟨rfl, rfl⟩

/-- C1 (amended): with simulate mode enabled, `decide` never returns
`TooExpensive` or `Throttle` for a shape hash that is not in the
`blocked_queries` set, for any wait statistics and any kill/effort state. -/
theorem c1_simulate_never_rejects (cfg : LMConfig) (blocked : List ℕ)
    (st : LMState) (storeAvg semAvg : Option ℕ) (shape now : ℕ) (draw : Bool)
    (d : Decision) (st' : LMState)
    (hsim : cfg.simulate = true) (hb : blocked.contains shape = false)
    (h : LoadManager.decide cfg blocked st storeAvg semAvg shape now draw
          = some (d, st')) :
    d = .Proceed := by
  have hb' : ¬(blocked.contains shape = true) := by simpa using hb
  unfold LoadManager.decide at h
  rw [if_neg hb'] at h
  simp only [hsim, if_true] at h
  split at h
  · simp_all
  · split at h
    · simp_all
    · split at h
      · simp_all
      · split at h
        · simp_all
        · split at h
          · simp_all
          · split at h
            · simp_all
            · split at h <;> simp_all

/-- C1 witness for the amended claim, at a concrete non-blocked input in
simulate mode. -/
theorem c1_witness :
    LoadManager.decide cfgSim0 [] stEx none none 7 0 false
      = some (.Proceed, stEx) ∧ Decision.Proceed = Decision.Proceed :=
  ⟨rfl, c1_simulate_never_rejects cfgSim0 [] stEx none none 7 0 false
    .Proceed stEx rfl rfl rfl⟩

/-- C6: the assertion `overloaded || kill_rate > 0` in `update_kill_rate`
never fails on a call made from `decide` (and the `gen_bool` range check
never fails either): whenever the stored kill rate is non-negative — the
invariant maintained by the update arithmetic — `decide` never panics.
`decide` returns `Proceed` before calling `update_kill_rate` whenever
`!overloaded && kill_rate == 0`, and `kill_rate ≠ 0` with `0 ≤ kill_rate`
gives `kill_rate > 0`. -/
theorem c6_assert_unreachable_from_decide (cfg : LMConfig) (blocked : List ℕ)
    (st : LMState) (storeAvg semAvg : Option ℕ) (shape now : ℕ) (draw : Bool)
    (hkr : 0 ≤ st.kill.kill_rate) :
    LoadManager.decide cfg blocked st storeAvg semAvg shape now draw ≠ none := by
  unfold LoadManager.decide
  by_cases h1 : blocked.contains shape = true
  · rw [if_pos h1]; simp
  rw [if_neg h1]
  by_cases h2 : cfg.load_threshold = 0
  · rw [if_pos h2]; simp
  rw [if_neg h2]
  by_cases h3 : st.jailed.contains shape = true
  · rw [if_pos h3]; simp
  rw [if_neg h3]
  by_cases h4 : (LoadManager.overloaded cfg.load_threshold storeAvg semAvg).1
      = false ∧ st.kill.kill_rate = 0
  · rw [if_pos h4]; simp
  rw [if_neg h4]
  by_cases h5 : st.total = 0
  · rw [if_pos h5]; simp
  rw [if_neg h5]
  by_cases h6 : ((st.effort shape).isSome && cfg.jail_queries
      && F.fgt (F.fdiv (.fin ((((st.effort shape).getD st.total) / 1000000 : ℕ) : ℚ))
                       (.fin ((st.total / 1000000 : ℕ) : ℚ)))
               (.fin cfg.jail_threshold)) = true
  · rw [if_pos h6]; simp
  rw [if_neg h6]
  have hpre : (LoadManager.overloaded cfg.load_threshold storeAvg semAvg).1
      = true ∨ 0 < st.kill.kill_rate := by
    by_cases hov :
        (LoadManager.overloaded cfg.load_threshold storeAvg semAvg).1 = true
    · exact Or.inl hov
    · right
      have hov' : (LoadManager.overloaded cfg.load_threshold storeAvg semAvg).1
          = false := by
        cases hq : (LoadManager.overloaded cfg.load_threshold storeAvg semAvg).1
        · rfl
        · exact absurd hq hov
      have hne : st.kill.kill_rate ≠ 0 := fun hz => h4 ⟨hov', hz⟩
      exact lt_of_le_of_ne hkr (Ne.symm hne)
  obtain ⟨⟨kr', kill'⟩, hu⟩ := update_kill_rate_isSome now st.kill.kill_rate
    st.kill.last_update
    (LoadManager.overloaded cfg.load_threshold storeAvg semAvg).1 st.kill hpre
  rw [hu]
  simp only [pOk_dropProb]
  split_ifs <;> simp

/-- C6 witness: at a concrete input with kill rate 0 (non-negative), `decide`
returns a value. -/
theorem c6_witness :
    LoadManager.decide cfgSim [] stEx none none 5 0 false ≠ none :=
  c6_assert_unreachable_from_decide cfgSim [] stEx none none 5 0 false
    (by norm_num [stEx, ksEx])

/-- C10: every return of `decide` taken before the kill-rate update step —
blocked query, load management disabled, jailed query, the
`!overloaded && kill_rate == 0` fast path, and zero total effort — leaves the
whole `LoadManager` state (kill state, jailed set, effort statistics)
unchanged. -/
theorem c10_early_returns_leave_state_unchanged (cfg : LMConfig)
    (blocked : List ℕ) (st : LMState) (storeAvg semAvg : Option ℕ)
    (shape now : ℕ) (draw : Bool)
    (h : blocked.contains shape = true ∨ cfg.load_threshold = 0 ∨
         st.jailed.contains shape = true ∨
         ((LoadManager.overloaded cfg.load_threshold storeAvg semAvg).1 = false ∧
           st.kill.kill_rate = 0) ∨
         st.total = 0) :
    ∃ d, LoadManager.decide cfg blocked st storeAvg semAvg shape now draw
      = some (d, st) := by
  unfold LoadManager.decide
  by_cases h1 : blocked.contains shape = true
  · rw [if_pos h1]; exact ⟨_, rfl⟩
  rw [if_neg h1]
  by_cases h2 : cfg.load_threshold = 0
  · rw [if_pos h2]; exact ⟨_, rfl⟩
  rw [if_neg h2]
  by_cases h3 : st.jailed.contains shape = true
  · rw [if_pos h3]; exact ⟨_, rfl⟩
  rw [if_neg h3]
  by_cases h4 : (LoadManager.overloaded cfg.load_threshold storeAvg semAvg).1
      = false ∧ st.kill.kill_rate = 0
  · rw [if_pos h4]; exact ⟨_, rfl⟩
  rw [if_neg h4]
  by_cases h5 : st.total = 0
  · rw [if_pos h5]; exact ⟨_, rfl⟩
  rcases h with h | h | h | h | h
  · exact absurd h h1
  · exact absurd h h2
  · exact absurd h h3
  · exact absurd h h4
  · exact absurd h h5

/-- C10 witness: the blocked-query early return leaves the state unchanged at
a concrete input. -/
theorem c10_witness :
    ∃ d, LoadManager.decide cfgSim [42] stEx none none 42 0 false
      = some (d, stEx) :=
  c10_early_returns_leave_state_unchanged cfgSim [42] stEx none none 42 0 false
    (Or.inl rfl)

/-- C4: when `decide` reaches the jailing step with a known query, jailing
enabled, and effort ratio above `JAIL_THRESHOLD`, the shape hash is inserted
into the jailed set and `TooExpensive` is returned (`Proceed` in simulate
mode, with the insertion still performed); afterwards, every `decide` for
that shape — with any wait statistics, time, or draw — answers from the
jailed-set check with `TooExpensive` (`Proceed` in simulate), leaving the
jailed state as is. -/
theorem c4_jailing_inserts_and_persists (cfg : LMConfig) (blocked : List ℕ)
    (st : LMState) (storeAvg semAvg : Option ℕ) (shape now : ℕ) (draw : Bool)
    (qd : ℕ)
    (hb : blocked.contains shape = false)
    (ht : cfg.load_threshold ≠ 0)
    (hj : st.jailed.contains shape = false)
    (hk : ¬((LoadManager.overloaded cfg.load_threshold storeAvg semAvg).1 = false
            ∧ st.kill.kill_rate = 0))
    (htot : st.total ≠ 0)
    (hq : st.effort shape = some qd)
    (hje : cfg.jail_queries = true)
    (hr : F.fgt (F.fdiv (.fin ((qd / 1000000 : ℕ) : ℚ))
                        (.fin ((st.total / 1000000 : ℕ) : ℚ)))
                (.fin cfg.jail_threshold) = true) :
    LoadManager.decide cfg blocked st storeAvg semAvg shape now draw
      = some ((if cfg.simulate then .Proceed else .TooExpensive),
              { st with jailed := shape :: st.jailed }) ∧
    ∀ (storeAvg' semAvg' : Option ℕ) (now' : ℕ) (draw' : Bool),
      LoadManager.decide cfg blocked { st with jailed := shape :: st.jailed }
          storeAvg' semAvg' shape now' draw'
        = some ((if cfg.simulate then .Proceed else .TooExpensive),
                { st with jailed := shape :: st.jailed }) := by
  have hb' : ¬(blocked.contains shape = true) := by simpa using hb
  have hj' : ¬(st.jailed.contains shape = true) := by simpa using hj
  constructor
  · unfold LoadManager.decide
    rw [if_neg hb', if_neg ht, if_neg hj', if_neg hk, if_neg htot, if_pos]
    rw [hq]
    simp only [Option.isSome_some, Option.getD_some, hje, Bool.true_and,
      Bool.and_true]
    exact hr
  · intro storeAvg' semAvg' now' draw'
    have hjmem : (({ st with jailed := shape :: st.jailed } : LMState).jailed.contains
        shape = true) := by
      simp [List.contains_cons]
    unfold LoadManager.decide
    rw [if_neg hb', if_neg ht, if_pos hjmem]

/-- Jailing configuration used by the C4 witness: threshold 10 ms, jailing
enabled with ratio threshold 0.9, simulate off. -/
def cfgJail : LMConfig := ⟨10000000, true, 9 / 10, false⟩

/-- State for the C4 witness: kill rate 1/2, shape 1 accounts for 95 ms of a
100 ms total effort. -/
def stJail : LMState :=
  ⟨[], ⟨1 / 2, 0, none, 0⟩,
   fun h => if h = 1 then some 95000000 else none, 100000000⟩

/-- C4 witness: the jailing step at a concrete input inserts the shape and
returns `TooExpensive`. -/
theorem c4_witness :
    LoadManager.decide cfgJail [] stJail none none 1 0 false
      = some ((if cfgJail.simulate then .Proceed else .TooExpensive),
              { stJail with jailed := 1 :: stJail.jailed }) :=
  (c4_jailing_inserts_and_persists cfgJail [] stJail none none 1 0 false
    95000000 rfl (by decide) rfl
    (fun hx => absurd hx.2 (by norm_num [stJail])) (by decide) rfl rfl
    (by norm_num [stJail, cfgJail, F.fgt, F.fdiv])).1

/-- C3 witness at a concrete disabled configuration. -/
theorem c3_witness :
    LoadManager.decide cfgSim0 [] stJail none none 3 0 true
      = some (.Proceed, stJail) :=
  c3_disabled_always_proceeds cfgSim0 [] stJail none none 3 0 true rfl rfl

/-- C5 witness: a blocked hash at a concrete input. -/
theorem c5_witness :
    LoadManager.decide cfgSim0 [77] stJail none none 77 0 true
      = some (.TooExpensive, stJail) :=
  c5_blocked_too_expensive cfgSim0 [77] stJail none none 77 0 true rfl

/-- C2 witness: with 2 s elapsed while overloaded, the kill rate steps from
0 to `min(1, 0 + 0.1*(1-0)) = 0.1` and `last_update` is committed. -/
theorem c2_witness :
    KILL_RATE_UPDATE_INTERVAL < 2000000000 - 0 ∧
    ∃ st' : KillState,
      LoadManager.update_kill_rate 2000000000 0 0 true ksEx
        = some ((if true then min 1 (0 + KILL_RATE_STEP_UP * (1 - 0))
                 else max 0 (0 - KILL_RATE_STEP_DOWN)), st') ∧
      st'.kill_rate = (if true then min 1 (0 + KILL_RATE_STEP_UP * (1 - 0))
                 else max 0 (0 - KILL_RATE_STEP_DOWN)) ∧
      st'.last_update = 2000000000 :=
  ⟨by decide,
   (c2_update_kill_rate_spec 2000000000 0 0 true ksEx (Or.inl rfl)).2
     (by decide)⟩

/-! ## Stopwatch lemmas and claims -/

/-- `record_and_reset` never touches the section stack. -/
theorem record_and_reset_stack (st : StopwatchInner) (now : ℕ) :
    (st.record_and_reset now).section_stack = st.section_stack := by
  obtain ⟨stack, t, c⟩ := st
  cases stack <;> rfl

/-- `start_section` pushes exactly the new id. -/
theorem start_section_stack (st : StopwatchInner) (now : ℕ) (id : String) :
    (st.start_section now id).section_stack = id :: st.section_stack := by
  obtain ⟨stack, t, c⟩ := st
  cases stack <;> rfl

/-- `end_section` pops at most one element off the stack. -/
theorem end_section_stack_len (st : StopwatchInner) (now : ℕ) (id : String) :
    st.section_stack.length ≤ (st.end_section now id).section_stack.length + 1 := by
  obtain ⟨stack, t, c⟩ := st
  cases stack with
  | nil => simp [StopwatchInner.end_section]
  | cons a l =>
      by_cases h : a = id
      · simp [StopwatchInner.end_section, h]
      · simp [StopwatchInner.end_section, h]

/-- C8: an `end_section` call on an empty stack or whose id differs from the
stack top is a no-op on the whole state — stack, timer and counters are left
unchanged; nothing is popped on a mismatched close. -/
theorem c8_mismatched_end_section_noop (st : StopwatchInner) (now : ℕ)
    (id : String) (h : st.section_stack.head? ≠ some id) :
    st.end_section now id = st := by
  obtain ⟨stack, t, c⟩ := st
  cases stack with
  | nil => rfl
  | cons a l =>
      have hne : a ≠ id := by
        intro he
        exact h (by simp [he])
      simp [StopwatchInner.end_section, hne]

/-- A concrete inner stopwatch used by the C8 witness. -/
def swEx : StopwatchInner := ⟨["a"], 0, fun _ => 0⟩

/-- C8 witness: closing section "b" while "a" is on top changes nothing. -/
theorem c8_witness : swEx.end_section 5 "b" = swEx :=
  c8_mismatched_end_section_noop swEx 5 "b" (by decide)

/-- Number of live section guards whose start actually pushed. -/
def pushedCount (l : List SectionHandle) : ℕ :=
  l.countP (fun h => h.pushed)

/-- Reading a list at a valid index yields a member. -/
theorem mem_of_get?_eq_some {α : Type} (l : List α) (k : ℕ) (a : α)
    (hk : l[k]? = some a) : a ∈ l := by
  induction l generalizing k with
  | nil => simp at hk
  | cons x t ih =>
      cases k with
      | zero =>
          simp only [List.getElem?_cons_zero] at hk
          injection hk with hk
          exact hk ▸ List.mem_cons_self x t
      | succ k =>
          simp only [List.getElem?_cons_succ] at hk
          exact List.mem_cons_of_mem x (ih k hk)

/-- Members survive `eraseIdx`. -/
theorem mem_of_mem_eraseIdx' {α : Type} (l : List α) (k : ℕ) (a : α)
    (ha : a ∈ l.eraseIdx k) : a ∈ l := by
  induction l generalizing k with
  | nil => simp [List.eraseIdx] at ha
  | cons x t ih =>
      cases k with
      | zero =>
          simp only [List.eraseIdx] at ha
          exact List.mem_cons_of_mem x ha
      | succ k =>
          simp only [List.eraseIdx] at ha
          rcases List.mem_cons.mp ha with h | h
          · exact h ▸ List.mem_cons_self x t
          · exact List.mem_cons_of_mem x (ih k h)

/-- Erasing the element at a valid index removes exactly its contribution to
`pushedCount`. -/
theorem pushedCount_eraseIdx (l : List SectionHandle) (k : ℕ)
    (h : SectionHandle) (hk : l[k]? = some h) :
    pushedCount l = pushedCount (l.eraseIdx k)
      + (if h.pushed then 1 else 0) := by
  induction l generalizing k with
  | nil => simp at hk
  | cons a t ih =>
      cases k with
      | zero =>
          simp only [List.getElem?_cons_zero] at hk
          injection hk with hk
          subst hk
          simp [pushedCount, List.eraseIdx, List.countP_cons]
      | succ k =>
          simp only [List.getElem?_cons_succ] at hk
          have hrec := ih k hk
          simp only [pushedCount, List.eraseIdx, List.countP_cons] at hrec ⊢
          omega

/-- Invariant for C7: the live pushed guards are strictly fewer than the
stack entries (so the base entry is never popped), and while the stopwatch
is enabled every live guard did push (the disable flag is one-way, so a guard
created while disabled can never pop). -/
def swInv (s : StopwatchSys) : Prop :=
  pushedCount s.pending + 1 ≤ s.inner.section_stack.length ∧
  (s.disabled = false → ∀ h ∈ s.pending, h.pushed = true)

/-- Every public stopwatch operation preserves the invariant. -/
theorem swStep_inv (s : StopwatchSys) (op : SWOp) (hs : swInv s) :
    swInv (swStep s op) := by
  obtain ⟨hlen, hpush⟩ := hs
  cases op with
  | start now id =>
      by_cases hd : s.disabled = true
      · constructor
        · simp only [swStep, if_pos hd, pushedCount, List.countP_cons] at hlen ⊢
          simpa using hlen
        · intro hdis
          simp [swStep, hd] at hdis
      · have hd' : s.disabled = false := by
          cases hq : s.disabled
          · rfl
          · exact absurd hq hd
        constructor
        · simp only [swStep, hd', Bool.false_eq_true, if_false, pushedCount,
            List.countP_cons, start_section_stack, List.length_cons,
            if_true] at hlen ⊢
          omega
        · intro _ h hm
          simp only [swStep, hd', Bool.false_eq_true, if_false] at hm
          rcases List.mem_cons.mp hm with hh | hh
          · rw [hh]
          · exact hpush hd' h hh
  | dropSec now k =>
      cases hk : s.pending[k]? with
      | none =>
          constructor
          · simpa [swStep, hk] using hlen
          · intro hdis h hm
            simp only [swStep, hk] at hdis hm
            exact hpush hdis h hm
      | some hd =>
          have herase := pushedCount_eraseIdx s.pending k hd hk
          by_cases hdis : s.disabled = true
          · constructor
            · simp only [swStep, hk, if_pos hdis]
              have : pushedCount (s.pending.eraseIdx k) ≤ pushedCount s.pending := by
                omega
              omega
            · intro hfalse
              simp [swStep, hk, hdis] at hfalse
          · have hd' : s.disabled = false := by
              cases hq : s.disabled
              · rfl
              · exact absurd hq hdis
            have hp : hd.pushed = true :=
              hpush hd' hd (mem_of_get?_eq_some s.pending k hd hk)
            have hpop := end_section_stack_len s.inner now hd.id
            constructor
            · simp only [swStep, hk, hd', Bool.false_eq_true, if_false]
              rw [hp] at herase
              simp only [if_pos] at herase
              omega
            · intro _ h hm
              simp only [swStep, hk, hd', Bool.false_eq_true, if_false] at hm
              exact hpush hd' h (mem_of_mem_eraseIdx' s.pending k h hm)
  | disable =>
      constructor
      · simpa [swStep] using hlen
      · intro hdis
        simp [swStep] at hdis

/-- The invariant holds after any run from a fresh stopwatch. -/
theorem swRun_foldl_inv (ops : List SWOp) (s : StopwatchSys) (hs : swInv s) :
    swInv (ops.foldl swStep s) := by
  induction ops generalizing s with
  | nil => exact hs
  | cons op t ih => exact ih (swStep s op) (swStep_inv s op hs)

/-- The fresh stopwatch satisfies the invariant: the base `"unknown"` section
is on the stack and no guards are live. -/
theorem swInit_inv (now0 : ℕ) : swInv (swInit now0) := by
  constructor
  · simp [swInit, pushedCount, start_section_stack]
  · intro _ h hm
    simp [swInit] at hm

/-- C7: for every sequence of public stopwatch operations (section starts,
guard drops in any order, disable) on a freshly created stopwatch, the
internal section stack is never empty: its length stays at least 1. -/
theorem c7_section_stack_never_empty (now0 : ℕ) (ops : List SWOp) :
    1 ≤ (swRun now0 ops).inner.section_stack.length := by
  have h := swRun_foldl_inv ops (swInit now0) (swInit_inv now0)
  exact le_trans (Nat.le_add_left 1 _) h.1
